import Mathlib

/-
Verification development for the perceptual reverse-image matching core:
the reference-image library service (server/services/reverseImageSearchService.js)
and the client-side average-hash fingerprint extractor
(client/src/utils/imageFingerprint.js).

Modelling conventions for the JavaScript source:
* JavaScript numbers that are always integral in the source are modelled as Int
  (or Nat where the source can only produce non-negative values).
* JavaScript floating-point arithmetic on similarity scores is modelled with
  exact rationals; the source only ever adds, divides and compares quantities
  derived from integer Hamming distances and bit counts.
* A value that may be absent (undefined) or a failed numeric parse (NaN) is
  modelled as an Option, with none for the absent or NaN case.
* Timestamps (createdAt, updatedAt, legacy uploadedAt) are modelled as Nat
  epoch milliseconds, 0 playing the role of the falsy absent value.
* Fallible functions (the source throws) return Except with the thrown message.
* Wall-clock fields (executionTimeMs) are outside a functional embedding and
  are omitted from the modelled summary record.
-/

namespace RevSearch

/-- HEX_BIT_COUNTS lookup table: popcount of each nibble 0..15. -/
def HEX_BIT_COUNTS : List Nat := [0, 1, 1, 2, 1, 2, 2, 3, 1, 2, 2, 3, 2, 3, 3, 4]

/-- parseInt of one character in base 16, as used inside hammingDistance.
A non-hex character parses to NaN in JavaScript, but the subsequent bitwise
xor coerces NaN to 0, so modelling the value of a non-hex digit as 0 is exact. -/
def hexVal (c : Char) : Nat :=
  if '0' ≤ c ∧ c ≤ '9' then c.toNat - '0'.toNat
  else if 'a' ≤ c ∧ c ≤ 'f' then c.toNat - 'a'.toNat + 10
  else if 'A' ≤ c ∧ c ≤ 'F' then c.toNat - 'A'.toNat + 10
  else 0

/-- Lower-case hex digit test, the character class of the validation regex
[0-9a-f]. -/
def isLowerHex (c : Char) : Bool :=
  ('0' ≤ c && c ≤ '9') || ('a' ≤ c && c ≤ 'f')

/-- ASCII lower-casing of one character, the effect of toLowerCase on the
ASCII inputs this service manipulates. -/
def lowerChar (c : Char) : Char :=
  if 'A' ≤ c ∧ c ≤ 'Z' then Char.ofNat (c.toNat + 32) else c

/-- Whitespace class trimmed by the JavaScript trim method (ASCII part). -/
def isJsSpace (c : Char) : Bool :=
  c = ' ' || c = '\t' || c = '\n' || c = '\r' || c = '\x0b' || c = '\x0c'

/-- trim: drop whitespace from both ends of the character list. -/
def trimChars (s : List Char) : List Char :=
  ((s.dropWhile isJsSpace).reverse.dropWhile isJsSpace).reverse

/-- String trim, modelled structurally on the underlying character list. -/
def jsTrim (s : String) : String := String.mk (trimChars s.data)

/-- String toLowerCase, modelled structurally on the character list. -/
def toLowerStr (s : String) : String := String.mk (s.data.map lowerChar)

/-- ReferenceImage record persisted in the JSON store (the fields written by
addReferenceImage, plus the legacy uploadedAt timestamp consulted by
listReferenceImages). -/
structure ReferenceImage where
  id : String
  title : String
  description : String
  sourceUrl : String
  tags : List String
  fingerprint : String
  fingerprintAlgorithm : String
  fingerprintLength : Int
  fileName : String
  mimeType : String
  fileSize : Nat
  uploadedBy : Option String
  createdAt : Nat
  updatedAt : Nat
  uploadedAt : Nat
  deriving DecidableEq

/-- validateFingerprint: rejects an absent or empty fingerprint, then trims,
lower-cases and checks the ^[0-9a-f]+$ regex. Absent input (undefined) is the
none case of the Option. -/
def validateFingerprint (hexString : Option String) : Except String String :=
  match hexString with
  | none => Except.error "Fingerprint is required"
  | some s =>
    if s = "" then Except.error "Fingerprint is required"
    else
      let normalised := toLowerStr (jsTrim s)
      if normalised ≠ "" ∧ normalised.data.all isLowerHex then Except.ok normalised
      else Except.error "Fingerprint must be a hex-encoded string"

/-- padEnd with the '0' character up to the target length. -/
def padEnd (s : List Char) (n : Nat) : List Char :=
  s ++ List.replicate (n - s.length) '0'

/-- Loop body of hammingDistance over two equal-length padded digit lists:
xor the two nibble values and add the popcount from the lookup table. -/
def hammingAux : List Char → List Char → Nat
  | a :: as, b :: bs =>
    HEX_BIT_COUNTS.getD ((hexVal a ^^^ hexVal b) &&& 15) 0 + hammingAux as bs
  | _, _ => 0

/-- hammingDistance between two hex strings over a comparison window.
The source computes maxLength as length falling back (when length is 0,
the falsy case) to the shorter of the two string lengths, slices both strings
to the window, right-pads with the '0' digit, and sums nibble popcounts.
When maxLength is not positive the source loop body never runs (and slice and
padEnd produce irrelevant values), so the distance is 0. -/
def hammingDistance (fingerprintA fingerprintB : String) (length : Int) : Nat :=
  let maxLength : Int :=
    if length = 0 then (min fingerprintA.length fingerprintB.length : Nat) else length
  if maxLength ≤ 0 then 0
  else
    hammingAux (padEnd (fingerprintA.data.take maxLength.toNat) maxLength.toNat)
      (padEnd (fingerprintB.data.take maxLength.toNat) maxLength.toNat)

/-- Map step of listReferenceImages: fall back to the legacy uploadedAt
timestamp when createdAt is absent (falsy, modelled as 0). -/
def withCreatedAt (image : ReferenceImage) : ReferenceImage :=
  { image with createdAt := if image.createdAt = 0 then image.uploadedAt else image.createdAt }

/-- Stable insertion used to model the JavaScript stable sort: the new element
is placed before the first already-sorted element it may precede. -/
def stableInsert (le : α → α → Bool) (a : α) : List α → List α
  | [] => [a]
  | b :: bs => if le a b then a :: b :: bs else b :: stableInsert le a bs

/-- Stable sort (insertion sort). Array.prototype.sort is required to be
stable, and a stable sort by a total comparator is extensionally unique, so
this structurally-recursive implementation is a faithful model of the
comparator sorts in the source. -/
def stableSort (le : α → α → Bool) : List α → List α
  | [] => []
  | a :: rest => stableInsert le a (stableSort le rest)

/-- listReferenceImages: read the store, fall back createdAt to uploadedAt,
and sort by createdAt descending (stable, comparator b.createdAt - a.createdAt
on the parsed dates, modelled directly on the numeric timestamps). -/
def listReferenceImages (store : List ReferenceImage) : List ReferenceImage :=
  stableSort (fun a b => decide (b.createdAt ≤ a.createdAt)) (store.map withCreatedAt)

/-- Scored entry produced for each candidate during a similarity search. -/
structure ScoredEntry where
  image : ReferenceImage
  similarity : ℚ
  distance : Nat
  bitCount : Int
  deriving DecidableEq

/-- Per-candidate scoring step of findSimilarImages: the effective comparison
length is the minimum of the query declared length and the candidate declared
length (falling back to the actual fingerprint string length when the declared
length is falsy); the bit count is 4 times that; the degenerate zero-bit case
is given similarity 0 without dividing, otherwise the similarity is
1 - distance / bits. -/
def scoreCandidate (targetFingerprint : String) (candidateFingerprintLength : Int)
    (image : ReferenceImage) : ScoredEntry :=
  let length := min candidateFingerprintLength
    (if image.fingerprintLength = 0 then (image.fingerprint.length : Int)
     else image.fingerprintLength)
  let bits := length * 4
  if bits = 0 then ⟨image, 0, 0, 0⟩
  else
    let distance := hammingDistance targetFingerprint image.fingerprint length
    ⟨image, 1 - (distance : ℚ) / (bits : ℚ), distance, bits⟩

/-- Number.parseInt(fingerprintLength, 10) || targetFingerprint.length:
none models an absent value or a NaN parse; 0 is falsy and also falls back. -/
def parseLen (fingerprintLength : Option Int) (targetFingerprint : String) : Int :=
  match fingerprintLength with
  | none => targetFingerprint.length
  | some v => if v = 0 then targetFingerprint.length else v

/-- Number(limit) || 10: none models a non-numeric limit (NaN), and 0 is
falsy, so both default to 10; any other integer, including a negative one,
is kept as is. -/
def numberOr10 : Option Int → Int
  | none => 10
  | some v => if v = 0 then 10 else v

/-- Math.max(1, Math.min(Number(limit) || 10, 50)): the count actually passed
to slice, clamping the numeric limit into the interval [1, 50]. -/
def effectiveLimit (limit : Option Int) : Int :=
  max 1 (min (numberOr10 limit) 50)

/-- SearchQuery: the inputs of findSimilarImages. The fingerprint may be
absent; the declared length and the limit arrive through numeric parses that
may produce NaN (none). -/
structure SearchQuery where
  fingerprint : Option String
  fingerprintAlgorithm : String
  fingerprintLength : Option Int
  limit : Option Int
  minSimilarity : ℚ
  deriving DecidableEq

/-- MatchResult: a returned match, the candidate record spread together with
its rounded similarity, Hamming distance and compared bit count. -/
structure MatchResult where
  image : ReferenceImage
  similarity : ℚ
  distance : Nat
  bitCount : Int
  deriving DecidableEq

/-- Summary block of a search response. The wall-clock executionTimeMs field
is omitted from the model. -/
structure SearchSummary where
  totalCandidates : Nat
  evaluated : Nat
  minSimilarity : ℚ
  limit : Int
  deriving DecidableEq

/-- Full response of findSimilarImages. The source field named matches is
called matchList here because matches is a reserved word in Lean. -/
structure SearchResult where
  matchList : List MatchResult
  summary : SearchSummary
  deriving DecidableEq

/-- Candidate set of a search: the listed store filtered to the records whose
fingerprintAlgorithm equals the lower-cased query algorithm. -/
def candidatesFor (store : List ReferenceImage) (normalisedAlgorithm : String) :
    List ReferenceImage :=
  (listReferenceImages store).filter (fun image => image.fingerprintAlgorithm == normalisedAlgorithm)

/-- Scored candidate list of a search, given the validated target fingerprint. -/
def scoredList (store : List ReferenceImage) (q : SearchQuery) (t : String) :
    List ScoredEntry :=
  (candidatesFor store (toLowerStr q.fingerprintAlgorithm)).map
    (scoreCandidate t (parseLen q.fingerprintLength t))

/-- Threshold filter of a search: entries whose similarity is at least
minSimilarity. -/
def qualifying (store : List ReferenceImage) (q : SearchQuery) (t : String) :
    List ScoredEntry :=
  (scoredList store q t).filter (fun entry => decide (q.minSimilarity ≤ entry.similarity))

/-- Comparator of the result sort: descending by similarity, ties stable. -/
def simDesc (a b : ScoredEntry) : Bool := decide (b.similarity ≤ a.similarity)

/-- Number(x.toFixed(4)) modelled as exact rounding to 4 decimal places. -/
def roundTo4 (q : ℚ) : ℚ := (round (q * 10000) : ℚ) / 10000

/-- Projection of a scored entry to a returned match: the candidate record
spread together with the rounded similarity, distance and bit count. -/
def toMatch (entry : ScoredEntry) : MatchResult :=
  ⟨entry.image, roundTo4 entry.similarity, entry.distance, entry.bitCount⟩

/-- Body of findSimilarImages after fingerprint validation succeeded with the
normalised target t: score the algorithm-filtered candidates, keep those at or
above the threshold, sort descending by similarity, truncate to the clamped
limit, shape the matches, and assemble the summary (whose limit field is the
unclamped Number(limit) || 10, exactly as in the source). -/
def searchResult (store : List ReferenceImage) (q : SearchQuery) (t : String) :
    SearchResult :=
  let scored := scoredList store q t
  let filtered := (stableSort simDesc (qualifying store q t)).take (effectiveLimit q.limit).toNat
  { matchList := filtered.map toMatch
    summary :=
      { totalCandidates := (candidatesFor store (toLowerStr q.fingerprintAlgorithm)).length
        evaluated := scored.length
        minSimilarity := q.minSimilarity
        limit := numberOr10 q.limit } }

/-- findSimilarImages: validate the query fingerprint, then run the search
over the stored collection. -/
def findSimilarImages (store : List ReferenceImage) (q : SearchQuery) :
    Except String SearchResult :=
  match validateFingerprint q.fingerprint with
  | Except.error e => Except.error e
  | Except.ok t => Except.ok (searchResult store q t)

/-- Tags input of addReferenceImage: either an array of values or a single
comma-separated string (the source stringifies each array element; the model
takes the array elements as strings directly). -/
inductive TagsInput where
  | arr (tags : List String)
  | str (raw : String)
  deriving DecidableEq

/-- normaliseTags: trim every tag and drop the empty (falsy) ones; a
non-array input is split on commas first. -/
def normaliseTags : TagsInput → List String
  | TagsInput.arr rawTags => (rawTags.map jsTrim).filter (fun tag => tag ≠ "")
  | TagsInput.str raw => ((raw.splitOn ",").map jsTrim).filter (fun tag => tag ≠ "")

/-- JavaScript defaulting of a possibly absent string: undefined and the
empty string are falsy and replaced by the default. -/
def orDefault (s : Option String) (d : String) : String :=
  match s with
  | none => d
  | some v => if v = "" then d else v

/-- Input fields of addReferenceImage. -/
structure AddImageInput where
  title : Option String
  description : Option String
  sourceUrl : Option String
  tags : TagsInput
  fingerprint : Option String
  fingerprintAlgorithm : Option String
  fingerprintLength : Option Int
  fileName : String
  mimeType : String
  fileSize : Nat
  uploadedBy : Option String
  deriving DecidableEq

/-- addReferenceImage: validate the fingerprint (throwing before any write,
so a failure leaves the stored collection untouched), build the payload with
the generated id and the current timestamps, append it to the collection and
return both the payload and the new collection. -/
def addReferenceImage (store : List ReferenceImage) (input : AddImageInput)
    (newId : String) (now : Nat) : Except String (ReferenceImage × List ReferenceImage) :=
  match validateFingerprint input.fingerprint with
  | Except.error e => Except.error e
  | Except.ok normalisedFingerprint =>
    let payload : ReferenceImage :=
      { id := newId
        title := orDefault input.title "Untitled reference"
        description := orDefault input.description ""
        sourceUrl := orDefault input.sourceUrl ""
        tags := normaliseTags input.tags
        fingerprint := normalisedFingerprint
        fingerprintAlgorithm := toLowerStr (orDefault input.fingerprintAlgorithm "ahash")
        fingerprintLength := parseLen input.fingerprintLength normalisedFingerprint
        fileName := input.fileName
        mimeType := input.mimeType
        fileSize := input.fileSize
        uploadedBy := match input.uploadedBy with
          | none => none
          | some u => if u = "" then none else some u
        createdAt := now
        updatedAt := now
        uploadedAt := 0 }
    Except.ok (payload, store ++ [payload])

/-- Removal of the first record with the given id, the findIndex plus splice
step of deleteReferenceImage; when no record matches, the collection comes
back unchanged and the source skips the write entirely. -/
def removeFirstById (id : String) : List ReferenceImage → Option ReferenceImage × List ReferenceImage
  | [] => (none, [])
  | image :: rest =>
    if image.id = id then (some image, rest)
    else
      let result := removeFirstById id rest
      (result.1, image :: result.2)

/-- deleteReferenceImage: a falsy (empty) id and a missing id both return
null without touching the store; otherwise the first record with the id is
spliced out and returned. -/
def deleteReferenceImage (store : List ReferenceImage) (id : String) :
    Option ReferenceImage × List ReferenceImage :=
  if id = "" then (none, store)
  else removeFirstById id store

/-- Pixel of the downsampled grid, with the channel intensities the canvas
returns (0..255, modelled as exact rationals as they enter the weighted sum). -/
structure Pixel where
  r : ℚ
  g : ℚ
  b : ℚ
  deriving DecidableEq

/-- Luminance weighted sum 0.299 R + 0.587 G + 0.114 B. -/
def luminance (p : Pixel) : ℚ := 299/1000 * p.r + 587/1000 * p.g + 114/1000 * p.b

/-- Threshold step of extractFingerprint: each cell becomes 1 when its
luminance is at least the mean luminance, else 0. -/
def bitsOf (pixels : List Pixel) : List Nat :=
  let grayscaleValues := pixels.map luminance
  let average := grayscaleValues.sum / (grayscaleValues.length : ℚ)
  grayscaleValues.map (fun value => if average ≤ value then 1 else 0)

/-- Packing step of extractFingerprint: bits are consumed 4 at a time,
most significant bit first within each nibble, any index past the end of the
bit array contributing 0, and each nibble becomes one hex character. -/
def packNibbles : List Nat → List Char
  | [] => []
  | [b0] => [Nat.digitChar ((b0 <<< 3))]
  | [b0, b1] => [Nat.digitChar ((b0 <<< 3) ||| (b1 <<< 2))]
  | [b0, b1, b2] => [Nat.digitChar ((b0 <<< 3) ||| (b1 <<< 2) ||| (b2 <<< 1))]
  | b0 :: b1 :: b2 :: b3 :: rest =>
    Nat.digitChar ((b0 <<< 3) ||| (b1 <<< 2) ||| (b2 <<< 1) ||| b3) :: packNibbles rest

/-- Result of extractFingerprint: the hex string and the raw bit array. -/
structure FingerprintData where
  fingerprint : String
  bits : List Nat
  deriving DecidableEq

/-- extractFingerprint, with the canvas rasterization abstracted: pixels is
the size-by-size downsampled raster the canvas produces (the DOM decoding
side is outside a functional embedding; everything from the grayscale
conversion on is modelled directly from the source). -/
def extractFingerprint (pixels : List Pixel) : FingerprintData :=
  let bits := bitsOf pixels
  ⟨String.mk (packNibbles bits), bits⟩

/-- Envelope returned by computeAverageHash. -/
structure HashResult where
  fingerprint : String
  bits : List Nat
  length : Nat
  algorithm : String
  size : Nat
  deriving DecidableEq

/-- computeAverageHash over an already-rasterized grid: the default options
give size = 8, and the envelope reports the hex length of the fingerprint and
the ahash algorithm tag. -/
def computeAverageHash (pixels : List Pixel) (size : Nat) : HashResult :=
  let fp := extractFingerprint pixels
  ⟨fp.fingerprint, fp.bits, fp.fingerprint.length, "ahash", size⟩

end RevSearch

namespace RevSearch

theorem stableInsert_perm (le : α → α → Bool) (a : α) :
    ∀ l : List α, (stableInsert le a l).Perm (a :: l)
  | [] => List.Perm.refl _
  | b :: bs => by
    simp only [stableInsert]
    split
    · exact List.Perm.refl _
    · exact ((stableInsert_perm le a bs).cons b).trans (List.Perm.swap a b bs)

theorem stableSort_perm (le : α → α → Bool) :
    ∀ l : List α, (stableSort le l).Perm l
  | [] => List.Perm.refl _
  | a :: rest =>
    (stableInsert_perm le a (stableSort le rest)).trans ((stableSort_perm le rest).cons a)

theorem mem_stableSort (le : α → α → Bool) (l : List α) (x : α) :
    x ∈ stableSort le l ↔ x ∈ l :=
  (stableSort_perm le l).mem_iff

theorem length_stableSort (le : α → α → Bool) (l : List α) :
    (stableSort le l).length = l.length :=
  (stableSort_perm le l).length_eq

theorem hammingAux_self : ∀ l : List Char, hammingAux l l = 0
  | [] => rfl
  | c :: cs => by
    simp [hammingAux, hammingAux_self cs, Nat.xor_self, HEX_BIT_COUNTS]

theorem hammingDistance_self (s : String) (k : Int) : hammingDistance s s k = 0 := by
  simp only [hammingDistance]
  split <;> split <;> first | rfl | exact hammingAux_self _

theorem scoreCandidate_image (t : String) (len : Int) (image : ReferenceImage) :
    (scoreCandidate t len image).image = image := by
  simp only [scoreCandidate]
  split <;> split <;> rfl

theorem withCreatedAt_fingerprint (image : ReferenceImage) :
    (withCreatedAt image).fingerprint = image.fingerprint := rfl

theorem withCreatedAt_fingerprintAlgorithm (image : ReferenceImage) :
    (withCreatedAt image).fingerprintAlgorithm = image.fingerprintAlgorithm := rfl

theorem withCreatedAt_fingerprintLength (image : ReferenceImage) :
    (withCreatedAt image).fingerprintLength = image.fingerprintLength := rfl

theorem validateFingerprint_ok_spec (fp : Option String) (t : String)
    (h : validateFingerprint fp = Except.ok t) :
    t.data ≠ [] ∧ t.data.all isLowerHex = true := by
  cases fp with
  | none => exact absurd h (by simp [validateFingerprint])
  | some s =>
    simp only [validateFingerprint] at h
    split at h
    · exact absurd h (by simp)
    · split at h
      · rename_i hcond
        injection h with h
        subst h
        refine ⟨?_, hcond.2⟩
        intro hd
        exact hcond.1 (congrArg String.mk hd)
      · exact absurd h (by simp)

theorem validateFingerprint_length_pos (fp : Option String) (t : String)
    (h : validateFingerprint fp = Except.ok t) : 0 < t.length :=
  List.length_pos.mpr (validateFingerprint_ok_spec fp t h).1

theorem packNibbles_length : ∀ l : List Nat, (packNibbles l).length = (l.length + 3) / 4
  | [] => rfl
  | [_] => by simp [packNibbles]
  | [_, _] => by simp [packNibbles]
  | [_, _, _] => by simp [packNibbles]
  | _ :: _ :: _ :: _ :: rest => by
    simp only [packNibbles, List.length_cons, packNibbles_length rest]
    omega

theorem bitsOf_length (pixels : List Pixel) : (bitsOf pixels).length = pixels.length := by
  simp [bitsOf]

theorem stringMk_length (l : List Char) : (String.mk l).length = l.length := rfl

theorem searchResult_matchList (store : List ReferenceImage) (q : SearchQuery) (t : String) :
    (searchResult store q t).matchList =
      ((stableSort simDesc (qualifying store q t)).take (effectiveLimit q.limit).toNat).map toMatch := rfl

theorem searchResult_summary (store : List ReferenceImage) (q : SearchQuery) (t : String) :
    (searchResult store q t).summary =
      ⟨(candidatesFor store (toLowerStr q.fingerprintAlgorithm)).length,
        (scoredList store q t).length, q.minSimilarity, numberOr10 q.limit⟩ := rfl

theorem roundTo4_one : roundTo4 1 = 1 := by
  norm_num [roundTo4]

theorem removeFirstById_not_found (id : String) :
    ∀ store : List ReferenceImage, (∀ r ∈ store, r.id ≠ id) →
      removeFirstById id store = (none, store)
  | [], _ => rfl
  | x :: xs, h => by
    have hx : x.id ≠ id := h x (List.mem_cons_self x xs)
    simp only [removeFirstById, if_neg hx,
      removeFirstById_not_found id xs (fun r hr => h r (List.mem_cons_of_mem x hr))]

theorem removeFirstById_found (id : String) :
    ∀ (store : List ReferenceImage) (r : ReferenceImage) (rest : List ReferenceImage),
      removeFirstById id store = (some r, rest) →
      r.id = id ∧ ∃ pre post, store = pre ++ r :: post ∧ rest = pre ++ post ∧
        ∀ x ∈ pre, x.id ≠ id
  | [], r, rest => by
    intro h
    exact absurd h (by simp [removeFirstById])
  | x :: xs, r, rest => by
    intro h
    simp only [removeFirstById] at h
    split at h
    · rename_i hx
      rw [Prod.mk.injEq] at h
      obtain ⟨hr, hrest⟩ := h
      injection hr with hr
      subst hr
      subst hrest
      exact ⟨hx, [], xs, rfl, rfl, by simp⟩
    · rename_i hx
      rw [Prod.mk.injEq] at h
      obtain ⟨h1, h2⟩ := h
      obtain ⟨hid, pre, post, hxs, hrest2, hpre⟩ :=
        removeFirstById_found id xs r (removeFirstById id xs).2 (Prod.ext h1 rfl)
      refine ⟨hid, x :: pre, post, ?_, ?_, ?_⟩
      · rw [List.cons_append, ← hxs]
      · rw [← h2, hrest2]
        rfl
      · intro y hy
        rcases List.mem_cons.mp hy with hy | hy
        · exact hy ▸ hx
        · exact hpre y hy

end RevSearch

namespace RevSearch

/-- Fixture constructor for concrete stores used by witnesses and
counterexamples. -/
def mkRef (i : String) (fp : String) (alg : String) (fpl : Int) (ts : Nat) : ReferenceImage :=
  ⟨i, "Title", "", "", [], fp, alg, fpl, "file.png", "image/png", 10, none, ts, ts, 0⟩

/-- C3: every match returned by findSimilarImages carries the lower-cased
query algorithm as its fingerprintAlgorithm, so a stored record whose
fingerprintAlgorithm differs from the (lower-cased) query algorithm is never
present among the matches, regardless of its fingerprint bits. -/
theorem c3_algorithm_isolation (store : List ReferenceImage) (q : SearchQuery) (t : String)
    (hv : validateFingerprint q.fingerprint = Except.ok t) :
    findSimilarImages store q = Except.ok (searchResult store q t) ∧
    ∀ m ∈ (searchResult store q t).matchList,
      m.image.fingerprintAlgorithm = toLowerStr q.fingerprintAlgorithm := by
  constructor
  · unfold findSimilarImages
    rw [hv]
  · intro m hm
    rw [searchResult_matchList] at hm
    rcases List.mem_map.mp hm with ⟨entry, hentry, rfl⟩
    have h1 : entry ∈ stableSort simDesc (qualifying store q t) :=
      List.mem_of_mem_take hentry
    have h2 : entry ∈ qualifying store q t := (mem_stableSort _ _ _).mp h1
    have h3 : entry ∈ scoredList store q t := List.mem_of_mem_filter h2
    rcases List.mem_map.mp h3 with ⟨cand, hcand, rfl⟩
    have h4 : (cand.fingerprintAlgorithm == toLowerStr q.fingerprintAlgorithm) = true :=
      (List.mem_filter.mp hcand).2
    have h5 : cand.fingerprintAlgorithm = toLowerStr q.fingerprintAlgorithm := by
      exact beq_iff_eq.mp h4
    simpa [toMatch, scoreCandidate_image] using h5

def c3wr : ReferenceImage := mkRef "r1" "ff" "ahash" 2 5

def c3wq : SearchQuery := ⟨some "ff", "AHash", some 2, some 10, 0⟩

def c3wm : MatchResult := toMatch (scoreCandidate "ff" 2 c3wr)

/-- Witness for C3: a concrete returned match carries the lower-cased query
algorithm. -/
theorem c3_algorithm_isolation_witness :
    c3wm.image.fingerprintAlgorithm = toLowerStr c3wq.fingerprintAlgorithm := by
  refine (c3_algorithm_isolation [c3wr] c3wq "ff" rfl).2 c3wm ?_
  rw [searchResult_matchList]
  have hlist : listReferenceImages [c3wr] = [c3wr] := by
    simp [listReferenceImages, stableSort, stableInsert, withCreatedAt, c3wr, mkRef]
  have hcand : candidatesFor [c3wr] (toLowerStr c3wq.fingerprintAlgorithm) = [c3wr] := by
    simp only [candidatesFor]
    rw [show toLowerStr c3wq.fingerprintAlgorithm = "ahash" from by decide, hlist]
    simp [c3wr, mkRef]
  have hscored : scoredList [c3wr] c3wq "ff" = [scoreCandidate "ff" 2 c3wr] := by
    simp only [scoredList]
    rw [hcand, show parseLen c3wq.fingerprintLength "ff" = 2 from by decide]
    simp
  have hsim : (scoreCandidate "ff" 2 c3wr).similarity = 1 := by
    simp [scoreCandidate, c3wr, mkRef, hammingDistance_self]
  have hqual : qualifying [c3wr] c3wq "ff" = [scoreCandidate "ff" 2 c3wr] := by
    simp only [qualifying]
    rw [hscored]
    simp [hsim, show c3wq.minSimilarity = 0 from rfl]
  rw [hqual, show (effectiveLimit c3wq.limit).toNat = 10 from by decide]
  simp [stableSort, stableInsert, c3wm]

/-- C4 (amended): the summary of findSimilarImages reports totalCandidates as
the post-algorithm-filter candidate count, evaluated equal to totalCandidates,
and limit as the raw Number(limit) || 10 value, which is not clamped into
[1, 50]. -/
theorem c4_summary_fields (store : List ReferenceImage) (q : SearchQuery) (t : String)
    (hv : validateFingerprint q.fingerprint = Except.ok t) :
    findSimilarImages store q = Except.ok (searchResult store q t) ∧
    (searchResult store q t).summary.totalCandidates =
      (candidatesFor store (toLowerStr q.fingerprintAlgorithm)).length ∧
    (searchResult store q t).summary.evaluated =
      (searchResult store q t).summary.totalCandidates ∧
    (searchResult store q t).summary.limit = numberOr10 q.limit := by
  refine ⟨?_, rfl, ?_, rfl⟩
  · unfold findSimilarImages
    rw [hv]
  · rw [searchResult_summary]
    simp [scoredList, List.length_map]

def c4wq : SearchQuery := ⟨some "ff", "ahash", none, some 7, 0⟩

/-- Witness for C4: the summary limit field of a concrete search is the
Number(limit) || 10 value. -/
theorem c4_summary_fields_witness :
    (searchResult [] c4wq "ff").summary.limit = numberOr10 c4wq.limit :=
  (c4_summary_fields [] c4wq "ff" rfl).2.2.2

/-- C4 counterexample: with limit 100 the summary limit field is 100, which
lies outside [1, 50] and differs from the clamped effective limit 50 that is
actually used for truncation, refuting the claim that the summary reports the
clamped value. -/
theorem c4_limit_not_clamped_counterexample :
    (searchResult [] ⟨some "ff", "ahash", none, some 100, 0⟩ "ff").summary.limit = 100 ∧
    ¬((100 : Int) ≤ 50) ∧
    effectiveLimit (some 100) = 50 ∧
    findSimilarImages [] ⟨some "ff", "ahash", none, some 100, 0⟩ =
      Except.ok (searchResult [] ⟨some "ff", "ahash", none, some 100, 0⟩ "ff") := by
  refine ⟨rfl, by norm_num, by norm_num [effectiveLimit, numberOr10], ?_⟩
  unfold findSimilarImages
  rfl

/-- C7: addReferenceImage with an absent, empty, or non-hex fingerprint fails
with the validation error; the failure is raised before anything is appended,
so no record is created and the stored collection is unchanged (the model
returns a new collection only on success). -/
theorem c7_invalid_fingerprint_rejected (store : List ReferenceImage) (input : AddImageInput)
    (newId : String) (now : Nat)
    (h : input.fingerprint = none ∨ input.fingerprint = some "" ∨
      ∃ s, input.fingerprint = some s ∧
        (toLowerStr (jsTrim s) = "" ∨
          (toLowerStr (jsTrim s)).data.any (fun c => !(isLowerHex c)) = true)) :
    ∃ e, addReferenceImage store input newId now = Except.error e := by
  have hv : ∃ e, validateFingerprint input.fingerprint = Except.error e := by
    rcases h with h | h | ⟨s, hs, hbad⟩
    · exact ⟨"Fingerprint is required", by rw [h]; rfl⟩
    · exact ⟨"Fingerprint is required", by rw [h]; rfl⟩
    · rw [hs]
      by_cases hse : s = ""
      · exact ⟨"Fingerprint is required", by simp [validateFingerprint, hse]⟩
      · have hnot : ¬(toLowerStr (jsTrim s) ≠ "" ∧
            (toLowerStr (jsTrim s)).data.all isLowerHex = true) := by
          rintro ⟨hne, hall⟩
          rcases hbad with hb | hb
          · exact hne hb
          · rcases List.any_eq_true.mp hb with ⟨c, hc, hcbad⟩
            have hcall := List.all_eq_true.mp hall c hc
            simp [hcall] at hcbad
        exact ⟨"Fingerprint must be a hex-encoded string",
          by simp only [validateFingerprint, if_neg hse, if_neg hnot]⟩
  obtain ⟨e, he⟩ := hv
  refine ⟨e, ?_⟩
  unfold addReferenceImage
  rw [he]

def c7winput : AddImageInput :=
  ⟨none, none, none, TagsInput.arr [], some "xyz!", none, none, "f.png", "image/png", 3, none⟩

/-- Witness for C7: adding with the non-hex fingerprint "xyz!" fails. -/
theorem c7_invalid_fingerprint_rejected_witness :
    ∃ e, addReferenceImage [] c7winput "id1" 0 = Except.error e :=
  c7_invalid_fingerprint_rejected [] c7winput "id1" 0
    (Or.inr (Or.inr ⟨"xyz!", rfl, Or.inr (by decide)⟩))

/-- C8: deleting an id that no stored record carries returns null and leaves
the collection unchanged, and running the same delete again behaves
identically (same null result, same unchanged collection). -/
theorem c8_delete_missing_idempotent (store : List ReferenceImage) (id : String)
    (h : ∀ r ∈ store, r.id ≠ id) :
    deleteReferenceImage store id = (none, store) ∧
    deleteReferenceImage (deleteReferenceImage store id).2 id =
      deleteReferenceImage store id := by
  have h1 : deleteReferenceImage store id = (none, store) := by
    unfold deleteReferenceImage
    split
    · rfl
    · exact removeFirstById_not_found id store h
  refine ⟨h1, ?_⟩
  rw [h1]
  exact h1

def c8wr : ReferenceImage := mkRef "a" "ff" "ahash" 2 5

/-- Witness for C8 at a concrete store and a missing id. -/
theorem c8_delete_missing_idempotent_witness :
    deleteReferenceImage [c8wr] "zz" = (none, [c8wr]) ∧
    deleteReferenceImage (deleteReferenceImage [c8wr] "zz").2 "zz" =
      deleteReferenceImage [c8wr] "zz" :=
  c8_delete_missing_idempotent [c8wr] "zz" (by decide)

/-- C9: a candidate whose effective comparison length yields bit count 0 is
scored as similarity 0 with distance 0 and bitCount 0, through the explicit
degenerate branch rather than a division by zero; scoring is a total function
over candidates. -/
theorem c9_zero_bits_degenerate (t : String) (len : Int) (image : ReferenceImage)
    (h : min len (if image.fingerprintLength = 0 then (image.fingerprint.length : Int)
      else image.fingerprintLength) * 4 = 0) :
    scoreCandidate t len image = ⟨image, 0, 0, 0⟩ := by
  simp only [scoreCandidate]
  rw [if_pos h]

def c9wimage : ReferenceImage := ⟨"w9", "Title", "", "", [], "", "ahash", 0, "f.png",
  "image/png", 0, none, 1, 1, 0⟩

/-- Witness for C9: a stored record with an empty fingerprint and declared
length 0 yields the degenerate score. -/
theorem c9_zero_bits_degenerate_witness :
    scoreCandidate "ab" 7 c9wimage = ⟨c9wimage, 0, 0, 0⟩ :=
  c9_zero_bits_degenerate "ab" 7 c9wimage (by decide)

/-- C10: when deleteReferenceImage removes an existing id it removes exactly
the first record carrying that id; every other record survives unchanged and
in its original relative order: the store splits as pre ++ removed :: post
with the new store pre ++ post. -/
theorem c10_delete_removes_exactly_one (store : List ReferenceImage) (id : String)
    (r : ReferenceImage) (rest : List ReferenceImage)
    (h : deleteReferenceImage store id = (some r, rest)) :
    r.id = id ∧ ∃ pre post, store = pre ++ r :: post ∧ rest = pre ++ post ∧
      ∀ x ∈ pre, x.id ≠ id := by
  unfold deleteReferenceImage at h
  split at h
  · exact absurd h (by simp)
  · exact removeFirstById_found id store r rest h

def c10wa : ReferenceImage := mkRef "a" "ff" "ahash" 2 5

def c10wb : ReferenceImage := mkRef "b" "aa" "ahash" 2 6

/-- Witness for C10 at a concrete two-record store. -/
theorem c10_delete_removes_exactly_one_witness :
    c10wb.id = "b" ∧ ∃ pre post, [c10wa, c10wb] = pre ++ c10wb :: post ∧
      [c10wa] = pre ++ post ∧ ∀ x ∈ pre, x.id ≠ "b" :=
  c10_delete_removes_exactly_one [c10wa, c10wb] "b" c10wb [c10wa] (by decide)

end RevSearch

namespace RevSearch

theorem scoreCandidate_exact (t : String) (L : Int) (image : ReferenceImage)
    (hfp : image.fingerprint = t)
    (hL : min L (if image.fingerprintLength = 0 then (image.fingerprint.length : Int)
      else image.fingerprintLength) ≠ 0) :
    (scoreCandidate t L image).similarity = 1 ∧ (scoreCandidate t L image).distance = 0 := by
  have hbits : ¬(min L (if image.fingerprintLength = 0 then (image.fingerprint.length : Int)
      else image.fingerprintLength) * 4 = 0) := by
    intro hc
    exact hL (by omega)
  simp only [scoreCandidate]
  rw [if_neg hbits]
  refine ⟨?_, ?_⟩ <;> simp [hfp, hammingDistance_self]

theorem filter_decide_le_length_mono (s1 s2 : ℚ) (hs : s1 ≤ s2) :
    ∀ l : List ScoredEntry,
      (l.filter (fun e => decide (s2 ≤ e.similarity))).length ≤
        (l.filter (fun e => decide (s1 ≤ e.similarity))).length
  | [] => le_refl _
  | x :: xs => by
    have ih := filter_decide_le_length_mono s1 s2 hs xs
    simp only [List.filter_cons, decide_eq_true_eq]
    by_cases h2 : s2 ≤ x.similarity
    · have h1 : s1 ≤ x.similarity := le_trans hs h2
      rw [if_pos h2, if_pos h1]
      simp only [List.length_cons]
      exact Nat.succ_le_succ ih
    · by_cases h1 : s1 ≤ x.similarity
      · rw [if_neg h2, if_pos h1]
        simp only [List.length_cons]
        exact le_trans ih (Nat.le_succ _)
      · rw [if_neg h2, if_neg h1]
        exact ih

/-- C2 (amended): for every limit input the returned match count never
exceeds 50 and is at least 1 when some candidate meets the threshold; the
effective limit used for truncation is clamped into [1, 50]; a non-numeric
(or zero) limit defaults to 10, while a negative limit is kept and clamped up
to an effective limit of 1 (it does not default to 10). -/
theorem c2_bounded_results (store : List ReferenceImage) (q : SearchQuery) (t : String)
    (hv : validateFingerprint q.fingerprint = Except.ok t) :
    findSimilarImages store q = Except.ok (searchResult store q t) ∧
    (searchResult store q t).matchList.length ≤ 50 ∧
    (qualifying store q t ≠ [] → (searchResult store q t).matchList ≠ []) ∧
    1 ≤ effectiveLimit q.limit ∧ effectiveLimit q.limit ≤ 50 ∧
    (q.limit = none → numberOr10 q.limit = 10) ∧
    (∀ v : Int, q.limit = some v → v < 0 → effectiveLimit q.limit = 1) := by
  have heff1 : 1 ≤ effectiveLimit q.limit := le_max_left _ _
  have heff50 : effectiveLimit q.limit ≤ 50 := by
    have hmin : min (numberOr10 q.limit) 50 ≤ 50 := min_le_right _ _
    unfold effectiveLimit
    omega
  have hlen : (searchResult store q t).matchList.length =
      min (effectiveLimit q.limit).toNat (qualifying store q t).length := by
    rw [searchResult_matchList, List.length_map, List.length_take, length_stableSort]
  refine ⟨by unfold findSimilarImages; rw [hv], ?_, ?_, heff1, heff50, ?_, ?_⟩
  · rw [hlen]
    omega
  · intro hne
    have hpos : 0 < (qualifying store q t).length := List.length_pos.mpr hne
    apply List.length_pos.mp
    rw [hlen]
    omega
  · intro h
    rw [h]
    rfl
  · intro v hvlim hneg
    rw [hvlim]
    simp only [effectiveLimit, numberOr10]
    rw [if_neg (by omega : ¬v = 0)]
    omega

def c2wq : SearchQuery := ⟨some "ff", "ahash", some 2, some 25, 1/2⟩

/-- Witness for C2 at a concrete query. -/
theorem c2_bounded_results_witness :
    (searchResult [] c2wq "ff").matchList.length ≤ 50 :=
  (c2_bounded_results [] c2wq "ff" rfl).2.1

def c2xa : ReferenceImage := mkRef "r1" "ff" "ahash" 2 5

def c2xb : ReferenceImage := mkRef "r2" "ff" "ahash" 2 5

def c2xq : SearchQuery := ⟨some "ff", "ahash", some 2, some (-5), 0⟩

/-- C2 counterexample: with a negative limit (-5) the claim says the limit
defaults to 10, so both of the 2 qualifying candidates would be returned; the
code instead keeps -5, clamps it to an effective limit of 1, and returns a
single match. -/
theorem c2_negative_limit_counterexample :
    (searchResult [c2xa, c2xb] c2xq "ff").matchList.length = 1 ∧
    (qualifying [c2xa, c2xb] c2xq "ff").length = 2 ∧
    effectiveLimit c2xq.limit = 1 ∧
    findSimilarImages [c2xa, c2xb] c2xq =
      Except.ok (searchResult [c2xa, c2xb] c2xq "ff") := by
  have hlist : listReferenceImages [c2xa, c2xb] = [c2xa, c2xb] := by
    simp [listReferenceImages, stableSort, stableInsert, withCreatedAt, c2xa, c2xb, mkRef]
  have hcand : candidatesFor [c2xa, c2xb] (toLowerStr c2xq.fingerprintAlgorithm) =
      [c2xa, c2xb] := by
    simp only [candidatesFor]
    rw [show toLowerStr c2xq.fingerprintAlgorithm = "ahash" from by decide, hlist]
    simp [c2xa, c2xb, mkRef]
  have hscored : scoredList [c2xa, c2xb] c2xq "ff" =
      [scoreCandidate "ff" 2 c2xa, scoreCandidate "ff" 2 c2xb] := by
    simp only [scoredList]
    rw [hcand, show parseLen c2xq.fingerprintLength "ff" = 2 from by decide]
    simp
  have hsa : (scoreCandidate "ff" 2 c2xa).similarity = 1 := by
    simp [scoreCandidate, c2xa, mkRef, hammingDistance_self]
  have hsb : (scoreCandidate "ff" 2 c2xb).similarity = 1 := by
    simp [scoreCandidate, c2xb, mkRef, hammingDistance_self]
  have hqual : qualifying [c2xa, c2xb] c2xq "ff" =
      [scoreCandidate "ff" 2 c2xa, scoreCandidate "ff" 2 c2xb] := by
    simp only [qualifying]
    rw [hscored]
    simp [hsa, hsb, show c2xq.minSimilarity = 0 from rfl]
  refine ⟨?_, by rw [hqual]; rfl, by decide, by unfold findSimilarImages; rfl⟩
  rw [searchResult_matchList, List.length_map, List.length_take, length_stableSort, hqual,
    show (effectiveLimit c2xq.limit).toNat = 1 from by decide]
  rfl

/-- C6: for a fixed query fingerprint, algorithm, declared length, limit and
store, raising minSimilarity never increases the number of returned matches. -/
theorem c6_min_similarity_monotone (store : List ReferenceImage) (fp : Option String)
    (alg : String) (fl lim : Option Int) (s1 s2 : ℚ) (t : String)
    (hs : s1 ≤ s2) (hv : validateFingerprint fp = Except.ok t) :
    findSimilarImages store ⟨fp, alg, fl, lim, s2⟩ =
      Except.ok (searchResult store ⟨fp, alg, fl, lim, s2⟩ t) ∧
    (searchResult store ⟨fp, alg, fl, lim, s2⟩ t).matchList.length ≤
      (searchResult store ⟨fp, alg, fl, lim, s1⟩ t).matchList.length := by
  constructor
  · unfold findSimilarImages
    rw [hv]
  · have hq : ∀ s : ℚ, (searchResult store ⟨fp, alg, fl, lim, s⟩ t).matchList.length =
        min (effectiveLimit lim).toNat (qualifying store ⟨fp, alg, fl, lim, s⟩ t).length := by
      intro s
      rw [searchResult_matchList, List.length_map, List.length_take, length_stableSort]
    rw [hq s1, hq s2]
    have hfl : (qualifying store ⟨fp, alg, fl, lim, s2⟩ t).length ≤
        (qualifying store ⟨fp, alg, fl, lim, s1⟩ t).length :=
      filter_decide_le_length_mono s1 s2 hs (scoredList store ⟨fp, alg, fl, lim, s1⟩ t)
    exact min_le_min (le_refl _) hfl

def c6wr : ReferenceImage := mkRef "r1" "ff" "ahash" 2 5

/-- Witness for C6 at a concrete store and thresholds 1/2 and 3/4. -/
theorem c6_min_similarity_monotone_witness :
    (searchResult [c6wr] ⟨some "ff", "ahash", some 2, some 10, 3/4⟩ "ff").matchList.length ≤
      (searchResult [c6wr] ⟨some "ff", "ahash", some 2, some 10, 1/2⟩ "ff").matchList.length :=
  (c6_min_similarity_monotone [c6wr] (some "ff") "ahash" (some 2) (some 10) (1/2) (3/4) "ff"
    (by norm_num) rfl).2

end RevSearch

namespace RevSearch

/-- C1 (amended): a stored record whose fingerprint, algorithm and declared
length are identical to the query values is always scored with similarity 1.0
and distance 0, and it is returned among the matches (as listed, i.e. with the
createdAt fallback applied) provided minSimilarity is at most 1 and the number
of candidates meeting the threshold does not exceed the clamped limit; with
more qualifying candidates than the limit an exact duplicate can be truncated
away, which is what the counterexample exhibits. -/
theorem c1_self_similarity (store : List ReferenceImage) (q : SearchQuery)
    (r : ReferenceImage) (t : String)
    (hv : validateFingerprint q.fingerprint = Except.ok t)
    (hr : r ∈ store)
    (hfp : r.fingerprint = t)
    (halg : r.fingerprintAlgorithm = toLowerStr q.fingerprintAlgorithm)
    (hlen : q.fingerprintLength = some r.fingerprintLength)
    (hmin : q.minSimilarity ≤ 1)
    (hcap : (qualifying store q t).length ≤ (effectiveLimit q.limit).toNat) :
    findSimilarImages store q = Except.ok (searchResult store q t) ∧
    ∃ m ∈ (searchResult store q t).matchList,
      m.image = withCreatedAt r ∧ m.similarity = 1 ∧ m.distance = 0 := by
  have htpos : 0 < t.length := validateFingerprint_length_pos q.fingerprint t hv
  have hw1 : (withCreatedAt r).fingerprint = t := by
    rw [withCreatedAt_fingerprint, hfp]
  have hscore := scoreCandidate_exact t (parseLen q.fingerprintLength t) (withCreatedAt r)
    hw1 (by
      rw [withCreatedAt_fingerprintLength, hw1, hlen]
      by_cases hk : r.fingerprintLength = 0
      · rw [hk]
        simp [parseLen]
        omega
      · simp only [parseLen, if_neg hk, min_self]
        exact hk)
  have hmem2 : withCreatedAt r ∈ candidatesFor store (toLowerStr q.fingerprintAlgorithm) := by
    apply List.mem_filter.mpr
    constructor
    · exact (mem_stableSort _ _ _).mpr (List.mem_map_of_mem withCreatedAt hr)
    · rw [withCreatedAt_fingerprintAlgorithm]
      exact beq_iff_eq.mpr halg
  have hmem3 : scoreCandidate t (parseLen q.fingerprintLength t) (withCreatedAt r) ∈
      scoredList store q t :=
    List.mem_map_of_mem (scoreCandidate t (parseLen q.fingerprintLength t)) hmem2
  have hmem4 : scoreCandidate t (parseLen q.fingerprintLength t) (withCreatedAt r) ∈
      qualifying store q t := by
    apply List.mem_filter.mpr
    refine ⟨hmem3, ?_⟩
    rw [hscore.1]
    exact decide_eq_true hmin
  have hmem5 : scoreCandidate t (parseLen q.fingerprintLength t) (withCreatedAt r) ∈
      stableSort simDesc (qualifying store q t) :=
    (mem_stableSort _ _ _).mpr hmem4
  have htake : (stableSort simDesc (qualifying store q t)).take
      (effectiveLimit q.limit).toNat = stableSort simDesc (qualifying store q t) :=
    List.take_of_length_le (by rw [length_stableSort]; exact hcap)
  refine ⟨by unfold findSimilarImages; rw [hv],
    toMatch (scoreCandidate t (parseLen q.fingerprintLength t) (withCreatedAt r)), ?_, ?_, ?_, ?_⟩
  · rw [searchResult_matchList, htake]
    exact List.mem_map_of_mem toMatch hmem5
  · show (scoreCandidate t (parseLen q.fingerprintLength t) (withCreatedAt r)).image =
      withCreatedAt r
    exact scoreCandidate_image _ _ _
  · show roundTo4 (scoreCandidate t (parseLen q.fingerprintLength t)
      (withCreatedAt r)).similarity = 1
    rw [hscore.1, roundTo4_one]
  · exact hscore.2

def c1wr : ReferenceImage := mkRef "r1" "ff" "ahash" 2 5

def c1wq : SearchQuery := ⟨some "ff", "ahash", some 2, some 10, 0⟩

/-- Witness for C1 at a concrete single-record store. -/
theorem c1_self_similarity_witness :
    ∃ m ∈ (searchResult [c1wr] c1wq "ff").matchList,
      m.image = withCreatedAt c1wr ∧ m.similarity = 1 ∧ m.distance = 0 :=
  (c1_self_similarity [c1wr] c1wq c1wr "ff" rfl (by simp) rfl (by decide) rfl
    (by norm_num [c1wq])
    (by
      have h1 : (qualifying [c1wr] c1wq "ff").length ≤
          (scoredList [c1wr] c1wq "ff").length := by
        simp only [qualifying]
        exact List.length_filter_le _ _
      have h2 : (scoredList [c1wr] c1wq "ff").length =
          (candidatesFor [c1wr] (toLowerStr c1wq.fingerprintAlgorithm)).length := by
        simp [scoredList]
      have h3 : (candidatesFor [c1wr] (toLowerStr c1wq.fingerprintAlgorithm)).length ≤
          (listReferenceImages [c1wr]).length := by
        simp only [candidatesFor]
        exact List.length_filter_le _ _
      have h4 : (listReferenceImages [c1wr]).length = 1 := by
        simp only [listReferenceImages, length_stableSort]
        simp
      rw [show (effectiveLimit c1wq.limit).toNat = 10 from by decide]
      omega)).2

def c1xa : ReferenceImage := mkRef "r1" "ff" "ahash" 2 5

def c1xb : ReferenceImage := mkRef "r2" "ff" "ahash" 2 5

def c1xq : SearchQuery := ⟨some "ff", "ahash", some 2, some 1, 0⟩

/-- C1 counterexample: the record r2 has fingerprint, algorithm and declared
length identical to the query (which validates to "ff"), yet with limit 1 and
an identical duplicate r1 in the store the returned matches are exactly the
one match for r1, so r2 is not returned at all, let alone with similarity 1. -/
theorem c1_limit_counterexample :
    ((searchResult [c1xa, c1xb] c1xq "ff").matchList.map (fun m => m.image.id)) = ["r1"] ∧
    c1xb ∈ [c1xa, c1xb] ∧
    c1xb.fingerprint = "ff" ∧
    c1xb.fingerprintAlgorithm = toLowerStr c1xq.fingerprintAlgorithm ∧
    c1xq.fingerprintLength = some c1xb.fingerprintLength ∧
    validateFingerprint c1xq.fingerprint = Except.ok "ff" ∧
    findSimilarImages [c1xa, c1xb] c1xq =
      Except.ok (searchResult [c1xa, c1xb] c1xq "ff") := by
  have hlist : listReferenceImages [c1xa, c1xb] = [c1xa, c1xb] := by
    simp [listReferenceImages, stableSort, stableInsert, withCreatedAt, c1xa, c1xb, mkRef]
  have hcand : candidatesFor [c1xa, c1xb] (toLowerStr c1xq.fingerprintAlgorithm) =
      [c1xa, c1xb] := by
    simp only [candidatesFor]
    rw [show toLowerStr c1xq.fingerprintAlgorithm = "ahash" from by decide, hlist]
    simp [c1xa, c1xb, mkRef]
  have hscored : scoredList [c1xa, c1xb] c1xq "ff" =
      [scoreCandidate "ff" 2 c1xa, scoreCandidate "ff" 2 c1xb] := by
    simp only [scoredList]
    rw [hcand, show parseLen c1xq.fingerprintLength "ff" = 2 from by decide]
    simp
  have hsa : (scoreCandidate "ff" 2 c1xa).similarity = 1 := by
    simp [scoreCandidate, c1xa, mkRef, hammingDistance_self]
  have hsb : (scoreCandidate "ff" 2 c1xb).similarity = 1 := by
    simp [scoreCandidate, c1xb, mkRef, hammingDistance_self]
  have hqual : qualifying [c1xa, c1xb] c1xq "ff" =
      [scoreCandidate "ff" 2 c1xa, scoreCandidate "ff" 2 c1xb] := by
    simp only [qualifying]
    rw [hscored]
    simp [hsa, hsb, show c1xq.minSimilarity = 0 from rfl]
  have hsort : stableSort simDesc
      [scoreCandidate "ff" 2 c1xa, scoreCandidate "ff" 2 c1xb] =
      [scoreCandidate "ff" 2 c1xa, scoreCandidate "ff" 2 c1xb] := by
    simp only [stableSort, stableInsert]
    rw [if_pos]
    simp only [simDesc, hsa, hsb]
    exact decide_eq_true (le_refl 1)
  refine ⟨?_, by simp, rfl, by decide, rfl, rfl, by unfold findSimilarImages; rfl⟩
  rw [searchResult_matchList, hqual, hsort,
    show (effectiveLimit c1xq.limit).toNat = 1 from by decide]
  simp [toMatch, scoreCandidate_image, c1xa, mkRef]

/-- C5 (amended): with the default grid size 8 the extractor consumes the
8 by 8 = 64 pixel raster into 64 bits and packs them into 64 / 4 = 16 hex
characters (not 64 hex characters / 256 bits, which would require grid size
16); the envelope length field reports the same 16. -/
theorem c5_fingerprint_sixteen_hex (pixels : List Pixel) (h : pixels.length = 64) :
    (computeAverageHash pixels 8).fingerprint.length = 16 ∧
    (computeAverageHash pixels 8).length = 16 ∧
    (computeAverageHash pixels 8).bits.length = 64 := by
  have hb : (bitsOf pixels).length = 64 := by rw [bitsOf_length, h]
  have hfp : (String.mk (packNibbles (bitsOf pixels))).length = 16 := by
    rw [stringMk_length, packNibbles_length, hb]
  exact ⟨hfp, hfp, hb⟩

def c5xpixels : List Pixel := List.replicate 64 ⟨0, 0, 0⟩

/-- C5 counterexample: on a concrete 64-pixel (8 by 8) raster the fingerprint
has 16 hex characters, not the 64 hex characters (256 bits) the claim states
for the default grid size. -/
theorem c5_default_grid_counterexample :
    (computeAverageHash c5xpixels 8).fingerprint.length = 16 ∧ (16 : Nat) ≠ 64 := by
  constructor
  · have hb : (bitsOf c5xpixels).length = 64 := by
      rw [bitsOf_length]
      simp [c5xpixels]
    show (String.mk (packNibbles (bitsOf c5xpixels))).length = 16
    rw [stringMk_length, packNibbles_length, hb]
  · decide

/-- Witness for C5 at the concrete 64-pixel raster. -/
theorem c5_fingerprint_sixteen_hex_witness :
    (computeAverageHash c5xpixels 8).fingerprint.length = 16 ∧
    (computeAverageHash c5xpixels 8).length = 16 ∧
    (computeAverageHash c5xpixels 8).bits.length = 64 :=
  c5_fingerprint_sixteen_hex c5xpixels (by simp [c5xpixels])

end RevSearch
